import Mathlib

/-!
Verification of the DF-ISE grid parser (`src/dfise_parser.py`) against its
natural-language specification.

The Python source is shallowly embedded: pure helpers become Lean functions,
Python `int` becomes `Int`, list indexing (`edges[i]`, raising `IndexError`
out of range) becomes `List.get?` returning `Option`, Python exceptions become
`Option`/`Except`, and float quantities that the claims never inspect are
carried as rationals.  Each definition mirrors one Python function and is
named after it.
-/

namespace DFISE

/-! ### First-seen deduplication

`_reconstruct_face_vertices` deduplicates the concatenated vertex list with
the loop

    unique_verts = []
    for v in vertices:
        if v not in unique_verts:
            unique_verts.append(v)

`uniqueFirstSeenGo` is that loop with the accumulator explicit. -/

def uniqueFirstSeenGo (acc : List Int) : List Int → List Int
  | [] => acc
  | v :: rest =>
      if v ∈ acc then uniqueFirstSeenGo acc rest
      else uniqueFirstSeenGo (acc ++ [v]) rest

def uniqueFirstSeen (l : List Int) : List Int := uniqueFirstSeenGo [] l

theorem mem_uniqueFirstSeenGo (l : List Int) :
    ∀ (acc : List Int) (x : Int),
      x ∈ uniqueFirstSeenGo acc l ↔ x ∈ acc ∨ x ∈ l := by
  induction l with
  | nil => intro acc x; simp [uniqueFirstSeenGo]
  | cons v rest ih =>
      intro acc x
      by_cases hv : v ∈ acc
      · rw [uniqueFirstSeenGo, if_pos hv, ih]
        constructor
        · rintro (h | h)
          · exact Or.inl h
          · exact Or.inr (List.mem_cons_of_mem _ h)
        · rintro (h | h)
          · exact Or.inl h
          · rcases List.mem_cons.mp h with h | h
            · exact Or.inl (h ▸ hv)
            · exact Or.inr h
      · rw [uniqueFirstSeenGo, if_neg hv, ih]
        simp only [List.mem_append, List.mem_singleton, List.mem_cons]
        tauto

theorem nodup_uniqueFirstSeenGo (l : List Int) :
    ∀ (acc : List Int), acc.Nodup → (uniqueFirstSeenGo acc l).Nodup := by
  induction l with
  | nil => intro acc h; simpa [uniqueFirstSeenGo] using h
  | cons v rest ih =>
      intro acc hacc
      by_cases hv : v ∈ acc
      · rw [uniqueFirstSeenGo, if_pos hv]; exact ih acc hacc
      · rw [uniqueFirstSeenGo, if_neg hv]
        refine ih _ ?_
        simpa [List.nodup_append] using ⟨hacc, hv⟩

theorem mem_uniqueFirstSeen (l : List Int) (x : Int) :
    x ∈ uniqueFirstSeen l ↔ x ∈ l := by
  rw [uniqueFirstSeen, mem_uniqueFirstSeenGo]
  simp

theorem nodup_uniqueFirstSeen (l : List Int) : (uniqueFirstSeen l).Nodup :=
  nodup_uniqueFirstSeenGo l [] List.nodup_nil

theorem toFinset_uniqueFirstSeen (l : List Int) :
    (uniqueFirstSeen l).toFinset = l.toFinset := by
  ext x
  simp [List.mem_toFinset, mem_uniqueFirstSeen]

theorem length_uniqueFirstSeen_eq_card (l : List Int) :
    (uniqueFirstSeen l).length = l.toFinset.card := by
  rw [← toFinset_uniqueFirstSeen, List.toFinset_card_of_nodup (nodup_uniqueFirstSeen l)]

/-! ### Face reconstruction (`_reconstruct_face_vertices`, lines 792-833)

A signed edge reference is resolved to an ordered vertex pair:

    if edge_idx < 0:
        actual_idx = -edge_idx - 1
        v1, v2 = edges[actual_idx]
        edge_verts = (v2, v1)
    else:
        actual_idx = edge_idx
        edge_verts = edges[actual_idx]

`edges[actual_idx]` raises `IndexError` when `actual_idx` is out of range
(the resolved index is never Python-negative), modelled as `none`. -/

def resolveEdge (edgeIdx : Int) (edges : List (Int × Int)) : Option (Int × Int) :=
  if edgeIdx < 0 then
    (edges.get? (-edgeIdx - 1).toNat).map (fun p => (p.2, p.1))
  else
    edges.get? edgeIdx.toNat

/-- `_reconstruct_face_vertices`: resolve the three signed edge references,
concatenate the vertex pairs in reference order, deduplicate first-seen, and
truncate to the first 3 distinct vertices when the count is not exactly 3. -/
def reconstructFaceVertices (faceEdges : Int × Int × Int)
    (edges : List (Int × Int)) : Option (List Int) := do
  let p1 ← resolveEdge faceEdges.1 edges
  let p2 ← resolveEdge faceEdges.2.1 edges
  let p3 ← resolveEdge faceEdges.2.2 edges
  let vertices := [p1.1, p1.2, p2.1, p2.2, p3.1, p3.2]
  let uniqueVerts := uniqueFirstSeen vertices
  if uniqueVerts.length = 3 then
    return uniqueVerts
  else
    return uniqueVerts.take 3

theorem resolveEdge_nonneg (edges : List (Int × Int)) (k : Nat)
    (hk : k < edges.length) :
    resolveEdge (k : Int) edges = some edges[k] := by
  have hnn : ¬ ((k : Int) < 0) := by omega
  have htn : ((k : Int)).toNat = k := Int.toNat_natCast k
  rw [resolveEdge, if_neg hnn, htn, List.get?_eq_getElem?,
    List.getElem?_eq_getElem hk]

theorem resolveEdge_neg (edges : List (Int × Int)) (k : Nat)
    (hk : k < edges.length) :
    resolveEdge (-((k : Int) + 1)) edges = some (edges[k].2, edges[k].1) := by
  have h1 : (-((k : Int) + 1)) < 0 := by omega
  have h2 : ((-(-((k : Int) + 1)) - 1)).toNat = k := by omega
  rw [resolveEdge, if_pos h1, h2, List.get?_eq_getElem?,
    List.getElem?_eq_getElem hk]
  rfl

theorem reconstructFaceVertices_resolved (r1 r2 r3 : Int)
    (edges : List (Int × Int)) (p1 p2 p3 : Int × Int)
    (h1 : resolveEdge r1 edges = some p1)
    (h2 : resolveEdge r2 edges = some p2)
    (h3 : resolveEdge r3 edges = some p3)
    (hcard : ([p1.1, p1.2, p2.1, p2.2, p3.1, p3.2] : List Int).toFinset.card = 3) :
    reconstructFaceVertices (r1, r2, r3) edges =
      some (uniqueFirstSeen [p1.1, p1.2, p2.1, p2.2, p3.1, p3.2]) := by
  have hlen : (uniqueFirstSeen [p1.1, p1.2, p2.1, p2.2, p3.1, p3.2]).length = 3 := by
    rw [length_uniqueFirstSeen_eq_card, hcard]
  simp only [reconstructFaceVertices, h1, h2, h3, Option.bind_eq_bind,
    Option.some_bind, hlen, if_pos]
  rfl

end DFISE

namespace DFISE

theorem reconstructFace_toFinset (r1 r2 r3 : Int) (edges : List (Int × Int))
    (p1 p2 p3 : Int × Int)
    (h1 : resolveEdge r1 edges = some p1)
    (h2 : resolveEdge r2 edges = some p2)
    (h3 : resolveEdge r3 edges = some p3)
    (hcard : ([p1.1, p1.2, p2.1, p2.2, p3.1, p3.2] : List Int).toFinset.card = 3) :
    ∃ l, reconstructFaceVertices (r1, r2, r3) edges = some l ∧
      l.toFinset = ([p1.1, p1.2, p2.1, p2.2, p3.1, p3.2] : List Int).toFinset :=
  ⟨_, reconstructFaceVertices_resolved r1 r2 r3 edges p1 p2 p3 h1 h2 h3 hcard,
    toFinset_uniqueFirstSeen _⟩

end DFISE

/-- C1: in `_reconstruct_face_vertices`, a non-negative edge reference `k`
resolves to edge `k`'s stored `(tail, head)` pair, a negative reference
`-(k+1)` resolves to edge `k`'s pair with the two vertices swapped, the three
resolved pairs are concatenated in reference order and deduplicated in
first-seen order, and when the three edges cover exactly 3 distinct vertices
the result is exactly those 3 distinct vertices. -/
theorem C1_face_reconstruction :
    (∀ (edges : List (Int × Int)) (k : Nat) (hk : k < edges.length),
        DFISE.resolveEdge (k : Int) edges = some edges[k]) ∧
    (∀ (edges : List (Int × Int)) (k : Nat) (hk : k < edges.length),
        DFISE.resolveEdge (-((k : Int) + 1)) edges =
          some (edges[k].2, edges[k].1)) ∧
    (∀ (r1 r2 r3 : Int) (edges : List (Int × Int)) (p1 p2 p3 : Int × Int),
        DFISE.resolveEdge r1 edges = some p1 →
        DFISE.resolveEdge r2 edges = some p2 →
        DFISE.resolveEdge r3 edges = some p3 →
        ([p1.1, p1.2, p2.1, p2.2, p3.1, p3.2] : List Int).toFinset.card = 3 →
        ∃ l, DFISE.reconstructFaceVertices (r1, r2, r3) edges = some l ∧
          l = DFISE.uniqueFirstSeen [p1.1, p1.2, p2.1, p2.2, p3.1, p3.2] ∧
          l.Nodup ∧ l.length = 3 ∧
          l.toFinset =
            ([p1.1, p1.2, p2.1, p2.2, p3.1, p3.2] : List Int).toFinset) := by
  refine ⟨DFISE.resolveEdge_nonneg, DFISE.resolveEdge_neg, ?_⟩
  intro r1 r2 r3 edges p1 p2 p3 h1 h2 h3 hcard
  refine ⟨DFISE.uniqueFirstSeen [p1.1, p1.2, p2.1, p2.2, p3.1, p3.2],
    DFISE.reconstructFaceVertices_resolved r1 r2 r3 edges p1 p2 p3 h1 h2 h3 hcard,
    rfl, DFISE.nodup_uniqueFirstSeen _, ?_, DFISE.toFinset_uniqueFirstSeen _⟩
  rw [DFISE.length_uniqueFirstSeen_eq_card, hcard]

/-- Witness for C1 at a concrete triangle: edges 0,1,2 form the cycle
10-11-12. -/
theorem C1_face_reconstruction_witness :
    DFISE.resolveEdge ((2 : Nat) : Int) [((10 : Int), 11), (11, 12), (12, 10)] =
      some (12, 10) ∧
    DFISE.resolveEdge (-(((2 : Nat) : Int) + 1))
      [((10 : Int), 11), (11, 12), (12, 10)] = some (10, 12) ∧
    ∃ l, DFISE.reconstructFaceVertices (0, 1, 2)
        [((10 : Int), 11), (11, 12), (12, 10)] = some l ∧
      l = DFISE.uniqueFirstSeen [10, 11, 11, 12, 12, 10] ∧
      l.Nodup ∧ l.length = 3 ∧
      l.toFinset = ([10, 11, 11, 12, 12, 10] : List Int).toFinset := by
  refine ⟨C1_face_reconstruction.1 _ 2 (by decide),
    C1_face_reconstruction.2.1 _ 2 (by decide), ?_⟩
  exact C1_face_reconstruction.2.2 0 1 2 [((10 : Int), 11), (11, 12), (12, 10)]
    (10, 11) (11, 12) (12, 10) (by decide) (by decide) (by decide) (by decide)

/-- C4: for edge indices `(k, m, n)` whose edges span exactly 3 distinct
vertices, reconstructing the face from `(+k, +m, +n)` and from the same
triple with any one reference replaced by its negation `-(index+1)` yields
the same set of 3 vertex indices. -/
theorem C4_sign_roundtrip (edges : List (Int × Int)) (k m n : Nat)
    (hk : k < edges.length) (hm : m < edges.length) (hn : n < edges.length)
    (hcard : ([edges[k].1, edges[k].2, edges[m].1, edges[m].2,
               edges[n].1, edges[n].2] : List Int).toFinset.card = 3) :
    (∃ l l', DFISE.reconstructFaceVertices ((k : Int), (m : Int), (n : Int)) edges = some l ∧
       DFISE.reconstructFaceVertices (-((k : Int) + 1), (m : Int), (n : Int)) edges = some l' ∧
       l.toFinset = l'.toFinset) ∧
    (∃ l l', DFISE.reconstructFaceVertices ((k : Int), (m : Int), (n : Int)) edges = some l ∧
       DFISE.reconstructFaceVertices ((k : Int), -((m : Int) + 1), (n : Int)) edges = some l' ∧
       l.toFinset = l'.toFinset) ∧
    (∃ l l', DFISE.reconstructFaceVertices ((k : Int), (m : Int), (n : Int)) edges = some l ∧
       DFISE.reconstructFaceVertices ((k : Int), (m : Int), -((n : Int) + 1)) edges = some l' ∧
       l.toFinset = l'.toFinset) := by
  obtain ⟨l0, hl0, hfs0⟩ := DFISE.reconstructFace_toFinset _ _ _ edges _ _ _
    (DFISE.resolveEdge_nonneg edges k hk) (DFISE.resolveEdge_nonneg edges m hm)
    (DFISE.resolveEdge_nonneg edges n hn) hcard
  have hswap1 : ([edges[k].2, edges[k].1, edges[m].1, edges[m].2,
      edges[n].1, edges[n].2] : List Int).toFinset =
      ([edges[k].1, edges[k].2, edges[m].1, edges[m].2,
        edges[n].1, edges[n].2] : List Int).toFinset :=
    List.toFinset_eq_of_perm _ _ (List.Perm.swap _ _ _)
  have hswap2 : ([edges[k].1, edges[k].2, edges[m].2, edges[m].1,
      edges[n].1, edges[n].2] : List Int).toFinset =
      ([edges[k].1, edges[k].2, edges[m].1, edges[m].2,
        edges[n].1, edges[n].2] : List Int).toFinset :=
    List.toFinset_eq_of_perm _ _ (((List.Perm.swap _ _ _).cons _).cons _)
  have hswap3 : ([edges[k].1, edges[k].2, edges[m].1, edges[m].2,
      edges[n].2, edges[n].1] : List Int).toFinset =
      ([edges[k].1, edges[k].2, edges[m].1, edges[m].2,
        edges[n].1, edges[n].2] : List Int).toFinset :=
    List.toFinset_eq_of_perm _ _ (((((List.Perm.swap _ _ _).cons _).cons _).cons _).cons _)
  obtain ⟨l1, hl1, hfs1⟩ := DFISE.reconstructFace_toFinset _ _ _ edges _ _ _
    (DFISE.resolveEdge_neg edges k hk) (DFISE.resolveEdge_nonneg edges m hm)
    (DFISE.resolveEdge_nonneg edges n hn) (by rw [hswap1]; exact hcard)
  obtain ⟨l2, hl2, hfs2⟩ := DFISE.reconstructFace_toFinset _ _ _ edges _ _ _
    (DFISE.resolveEdge_nonneg edges k hk) (DFISE.resolveEdge_neg edges m hm)
    (DFISE.resolveEdge_nonneg edges n hn) (by rw [hswap2]; exact hcard)
  obtain ⟨l3, hl3, hfs3⟩ := DFISE.reconstructFace_toFinset _ _ _ edges _ _ _
    (DFISE.resolveEdge_nonneg edges k hk) (DFISE.resolveEdge_nonneg edges m hm)
    (DFISE.resolveEdge_neg edges n hn) (by rw [hswap3]; exact hcard)
  exact ⟨⟨l0, l1, hl0, hl1, by rw [hfs0, hfs1, hswap1]⟩,
    ⟨l0, l2, hl0, hl2, by rw [hfs0, hfs2, hswap2]⟩,
    ⟨l0, l3, hl0, hl3, by rw [hfs0, hfs3, hswap3]⟩⟩

/-- Witness for C4 at the concrete triangle 10-11-12. -/
theorem C4_sign_roundtrip_witness :
    (∃ l l', DFISE.reconstructFaceVertices (((0 : Nat) : Int), ((1 : Nat) : Int), ((2 : Nat) : Int))
        [((10 : Int), 11), (11, 12), (12, 10)] = some l ∧
       DFISE.reconstructFaceVertices (-(((0 : Nat) : Int) + 1), ((1 : Nat) : Int), ((2 : Nat) : Int))
        [((10 : Int), 11), (11, 12), (12, 10)] = some l' ∧
       l.toFinset = l'.toFinset) ∧
    (∃ l l', DFISE.reconstructFaceVertices (((0 : Nat) : Int), ((1 : Nat) : Int), ((2 : Nat) : Int))
        [((10 : Int), 11), (11, 12), (12, 10)] = some l ∧
       DFISE.reconstructFaceVertices (((0 : Nat) : Int), -(((1 : Nat) : Int) + 1), ((2 : Nat) : Int))
        [((10 : Int), 11), (11, 12), (12, 10)] = some l' ∧
       l.toFinset = l'.toFinset) ∧
    (∃ l l', DFISE.reconstructFaceVertices (((0 : Nat) : Int), ((1 : Nat) : Int), ((2 : Nat) : Int))
        [((10 : Int), 11), (11, 12), (12, 10)] = some l ∧
       DFISE.reconstructFaceVertices (((0 : Nat) : Int), ((1 : Nat) : Int), -(((2 : Nat) : Int) + 1))
        [((10 : Int), 11), (11, 12), (12, 10)] = some l' ∧
       l.toFinset = l'.toFinset) :=
  C4_sign_roundtrip [((10 : Int), 11), (11, 12), (12, 10)] 0 1 2
    (by decide) (by decide) (by decide) (by decide)


namespace DFISE

/-! ### Element reconstruction (`_reconstruct_element_vertices`, lines 835-868)

    if face_idx < 0:
        actual_idx = -face_idx - 1
    else:
        actual_idx = face_idx
    vertices.update(faces_as_vertices[actual_idx])

`vertices` is a Python `set` accumulating the four faces' vertex lists; the
code then observes it through `len(vertices)`, `sorted(vertices)` and
`list(vertices)`.  The set is modelled by the ascending list of its distinct
elements (`insertionSort` of the first-seen deduplication), so `len` is the
list's length, `sorted` is the list itself, and `list` — whose CPython
iteration order for the small non-negative ints of a mesh is ascending — is
also the list itself. -/

def resolveFaceIdx (faceIdx : Int) : Nat :=
  if faceIdx < 0 then (-faceIdx - 1).toNat else faceIdx.toNat

def reconstructElementVertices (elementFaces : Int × Int × Int × Int)
    (facesAsVertices : List (List Int)) : Option (List Int) := do
  let f1 ← facesAsVertices.get? (resolveFaceIdx elementFaces.1)
  let f2 ← facesAsVertices.get? (resolveFaceIdx elementFaces.2.1)
  let f3 ← facesAsVertices.get? (resolveFaceIdx elementFaces.2.2.1)
  let f4 ← facesAsVertices.get? (resolveFaceIdx elementFaces.2.2.2)
  let vertices := List.insertionSort (· ≤ ·) (uniqueFirstSeen (f1 ++ f2 ++ f3 ++ f4))
  if vertices.length = 4 then
    return vertices
  else
    return (vertices ++ List.replicate (4 - vertices.length) 0).take 4

theorem resolveFaceIdx_nonneg (k : Nat) : resolveFaceIdx (k : Int) = k := by
  rw [resolveFaceIdx, if_neg (by omega)]
  exact Int.toNat_natCast k

theorem resolveFaceIdx_neg (k : Nat) : resolveFaceIdx (-((k : Int) + 1)) = k := by
  rw [resolveFaceIdx, if_pos (by omega)]
  omega

/-- The set contents of the four faces' vertices, as the ascending list the
model uses. -/
def elementVertexSet (f1 f2 f3 f4 : List Int) : List Int :=
  List.insertionSort (· ≤ ·) (uniqueFirstSeen (f1 ++ f2 ++ f3 ++ f4))

theorem elementVertexSet_toFinset (f1 f2 f3 f4 : List Int) :
    (elementVertexSet f1 f2 f3 f4).toFinset =
      f1.toFinset ∪ f2.toFinset ∪ f3.toFinset ∪ f4.toFinset := by
  rw [elementVertexSet,
    List.toFinset_eq_of_perm _ _ (List.perm_insertionSort _ _),
    toFinset_uniqueFirstSeen]
  simp [List.toFinset_append, Finset.union_assoc]

theorem elementVertexSet_nodup (f1 f2 f3 f4 : List Int) :
    (elementVertexSet f1 f2 f3 f4).Nodup :=
  ((List.perm_insertionSort _ _).nodup_iff).mpr (nodup_uniqueFirstSeen _)

theorem elementVertexSet_length (f1 f2 f3 f4 : List Int) :
    (elementVertexSet f1 f2 f3 f4).length =
      (f1.toFinset ∪ f2.toFinset ∪ f3.toFinset ∪ f4.toFinset).card := by
  rw [← elementVertexSet_toFinset,
    List.toFinset_card_of_nodup (elementVertexSet_nodup f1 f2 f3 f4)]

theorem reconstructElementVertices_resolved
    (r1 r2 r3 r4 : Int) (faces : List (List Int)) (f1 f2 f3 f4 : List Int)
    (h1 : faces.get? (resolveFaceIdx r1) = some f1)
    (h2 : faces.get? (resolveFaceIdx r2) = some f2)
    (h3 : faces.get? (resolveFaceIdx r3) = some f3)
    (h4 : faces.get? (resolveFaceIdx r4) = some f4) :
    reconstructElementVertices (r1, r2, r3, r4) faces =
      if (elementVertexSet f1 f2 f3 f4).length = 4 then
        some (elementVertexSet f1 f2 f3 f4)
      else
        some ((elementVertexSet f1 f2 f3 f4 ++
          List.replicate (4 - (elementVertexSet f1 f2 f3 f4).length) 0).take 4) := by
  simp only [reconstructElementVertices, List.get?_eq_getElem?] at *
  rw [h1, h2, h3, h4]
  rfl

end DFISE

/-- C2: in `_reconstruct_element_vertices`, face references `k` and `-(k+1)`
resolve to the same face index (sign never changes which vertices are
collected), the element's vertex set is the deduplicated union of the 4
referenced faces' vertex sets, and when that union has exactly 4 distinct
vertices the result is exactly those 4 vertices in ascending order. -/
theorem C2_element_reconstruction :
    (∀ k : Nat, DFISE.resolveFaceIdx (k : Int) = k ∧
        DFISE.resolveFaceIdx (-((k : Int) + 1)) = k) ∧
    (∀ (r1 r2 r3 r4 : Int) (faces : List (List Int)) (f1 f2 f3 f4 : List Int),
        faces.get? (DFISE.resolveFaceIdx r1) = some f1 →
        faces.get? (DFISE.resolveFaceIdx r2) = some f2 →
        faces.get? (DFISE.resolveFaceIdx r3) = some f3 →
        faces.get? (DFISE.resolveFaceIdx r4) = some f4 →
        (f1.toFinset ∪ f2.toFinset ∪ f3.toFinset ∪ f4.toFinset).card = 4 →
        ∃ l, DFISE.reconstructElementVertices (r1, r2, r3, r4) faces = some l ∧
          l.toFinset = f1.toFinset ∪ f2.toFinset ∪ f3.toFinset ∪ f4.toFinset ∧
          l.Sorted (· ≤ ·) ∧ l.Nodup ∧ l.length = 4) := by
  refine ⟨fun k => ⟨DFISE.resolveFaceIdx_nonneg k, DFISE.resolveFaceIdx_neg k⟩, ?_⟩
  intro r1 r2 r3 r4 faces f1 f2 f3 f4 h1 h2 h3 h4 hcard
  have hlen : (DFISE.elementVertexSet f1 f2 f3 f4).length = 4 := by
    rw [DFISE.elementVertexSet_length, hcard]
  refine ⟨DFISE.elementVertexSet f1 f2 f3 f4, ?_,
    DFISE.elementVertexSet_toFinset f1 f2 f3 f4,
    List.sorted_insertionSort _ _,
    DFISE.elementVertexSet_nodup f1 f2 f3 f4, hlen⟩
  rw [DFISE.reconstructElementVertices_resolved r1 r2 r3 r4 faces
    f1 f2 f3 f4 h1 h2 h3 h4, if_pos hlen]

/-- Witness for C2: element referencing faces 0..3 of a tetrahedron on
vertices 0,1,2,3, once through the negated reference -1. -/
theorem C2_element_reconstruction_witness :
    (DFISE.resolveFaceIdx ((0 : Nat) : Int) = 0 ∧
      DFISE.resolveFaceIdx (-(((0 : Nat) : Int) + 1)) = 0) ∧
    ∃ l, DFISE.reconstructElementVertices (-1, 1, 2, 3)
        [[0, 1, 2], [0, 1, 3], [0, 2, 3], [1, 2, 3]] = some l ∧
      l.toFinset = ([0, 1, 2] : List Int).toFinset ∪
        ([0, 1, 3] : List Int).toFinset ∪ ([0, 2, 3] : List Int).toFinset ∪
        ([1, 2, 3] : List Int).toFinset ∧
      l.Sorted (· ≤ ·) ∧ l.Nodup ∧ l.length = 4 := by
  refine ⟨C2_element_reconstruction.1 0, ?_⟩
  exact C2_element_reconstruction.2 (-1) 1 2 3
    [[0, 1, 2], [0, 1, 3], [0, 2, 3], [1, 2, 3]]
    [0, 1, 2] [0, 1, 3] [0, 2, 3] [1, 2, 3]
    (by decide) (by decide) (by decide) (by decide) (by decide)

namespace DFISE

/-! ### Element reconstruction step of `export_to_nas` (lines 1392-1401)

    try:
        elem_verts = self._reconstruct_element_vertices(elem_faces, faces_as_vertices)
        elements_as_vertices.append(elem_verts)
    except Exception as e:
        self._add_warning(f"...")
        elements_as_vertices.append((0, 0, 0, 0))

The Bool is `true` exactly when a warning is appended for this element. -/

def reconstructElementStep (elementFaces : Int × Int × Int × Int)
    (facesAsVertices : List (List Int)) : List Int × Bool :=
  match reconstructElementVertices elementFaces facesAsVertices with
  | some verts => (verts, false)
  | none => ([0, 0, 0, 0], true)

theorem reconstructElementVertices_length (ef : Int × Int × Int × Int)
    (faces : List (List Int)) (r : List Int)
    (h : reconstructElementVertices ef faces = some r) : r.length = 4 := by
  obtain ⟨a, b, c, d⟩ := ef
  rcases hg1 : faces.get? (resolveFaceIdx a) with _ | f1
  · rw [List.get?_eq_getElem?] at hg1
    simp [reconstructElementVertices, hg1] at h
  rcases hg2 : faces.get? (resolveFaceIdx b) with _ | f2
  · rw [List.get?_eq_getElem?] at hg1 hg2
    simp [reconstructElementVertices, hg1, hg2] at h
  rcases hg3 : faces.get? (resolveFaceIdx c) with _ | f3
  · rw [List.get?_eq_getElem?] at hg1 hg2 hg3
    simp [reconstructElementVertices, hg1, hg2, hg3] at h
  rcases hg4 : faces.get? (resolveFaceIdx d) with _ | f4
  · rw [List.get?_eq_getElem?] at hg1 hg2 hg3 hg4
    simp [reconstructElementVertices, hg1, hg2, hg3, hg4] at h
  rw [reconstructElementVertices_resolved a b c d faces f1 f2 f3 f4
    hg1 hg2 hg3 hg4] at h
  by_cases hlen : (elementVertexSet f1 f2 f3 f4).length = 4
  · rw [if_pos hlen, Option.some_inj] at h
    rw [← h, hlen]
  · rw [if_neg hlen, Option.some_inj] at h
    rw [← h]
    simp only [List.length_take, List.length_append, List.length_replicate]
    omega

end DFISE

/-- C8 counterexample: element `(0,0,0,0)` over the single face `[0,1,2]`
has a 3-vertex union; the reconstruction step returns the padded 4-tuple
`(0,1,2,0)` but records NO warning, while the claim asserts a diagnostic is
recorded for such an element. -/
theorem C8_counterexample :
    DFISE.reconstructElementStep (0, 0, 0, 0) [[0, 1, 2]] = ([0, 1, 2, 0], false) ∧
    ¬ (DFISE.reconstructElementStep (0, 0, 0, 0) [[0, 1, 2]]).2 = true := by
  exact ⟨by decide, by decide⟩

/-- C8 amended: an element whose 4 referenced faces' vertex union does not
total exactly 4 distinct vertices still yields a 4-entry result (the union
padded with vertex 0 or truncated to 4 entries) and the pass does not fail,
but NO diagnostic is recorded for it; a warning (with placeholder
`(0,0,0,0)`) is recorded only when reconstruction raises, i.e. when a face
reference is out of range. -/
theorem C8_pad_truncate_unflagged :
    (∀ (ef : Int × Int × Int × Int) (faces : List (List Int)) (r : List Int),
        DFISE.reconstructElementVertices ef faces = some r →
        DFISE.reconstructElementStep ef faces = (r, false) ∧ r.length = 4) ∧
    (∀ (ef : Int × Int × Int × Int) (faces : List (List Int)),
        DFISE.reconstructElementVertices ef faces = none →
        DFISE.reconstructElementStep ef faces = ([0, 0, 0, 0], true)) := by
  constructor
  · intro ef faces r h
    refine ⟨?_, DFISE.reconstructElementVertices_length ef faces r h⟩
    rw [DFISE.reconstructElementStep, h]
  · intro ef faces h
    rw [DFISE.reconstructElementStep, h]

/-- Witness for C8 amended: the padded element of the counterexample input
and an element with an out-of-range face reference. -/
theorem C8_pad_truncate_unflagged_witness :
    (DFISE.reconstructElementStep (0, 0, 0, 0) [[0, 1, 2]] = ([0, 1, 2, 0], false) ∧
      ([0, 1, 2, 0] : List Int).length = 4) ∧
    DFISE.reconstructElementStep (7, 0, 0, 0) [[0, 1, 2]] = ([0, 0, 0, 0], true) :=
  ⟨C8_pad_truncate_unflagged.1 (0, 0, 0, 0) [[0, 1, 2]] [0, 1, 2, 0] (by decide),
    C8_pad_truncate_unflagged.2 (7, 0, 0, 0) [[0, 1, 2]] (by decide)⟩

namespace DFISE

/-! ### Faces section parsing (`parse_faces_full`, lines 598-646)

Each non-empty data line of the `Faces` section is whitespace-split (or, in
the indexed format, the text between the parentheses is split) into a token
list `parts`; tokenisation is elided here and a line is modelled by its
token list.  The per-line logic is

    if len(parts) >= 4 and parts[0] == '3':
        e1 = int(parts[1]); e2 = int(parts[2]); e3 = int(parts[3])
        faces.append((e1, e2, e3))
    except (ValueError, IndexError) as e:
        self._add_warning(...)

`pyIntOfString` models `int()` on a whitespace-free token: an optional sign
followed by at least one digit (exotic forms such as underscores are not
produced by the mesh grammar and are not modelled). -/

def digitsToNat (cs : List Char) : Option Nat :=
  if cs ≠ [] ∧ cs.all (fun c => c.isDigit) then
    some (cs.foldl (fun n c => 10 * n + (c.toNat - 48)) 0)
  else
    none

def pyIntOfString (s : String) : Option Int :=
  match s.data with
  | [] => none
  | '-' :: rest => (digitsToNat rest).map (fun n => -(n : Int))
  | '+' :: rest => (digitsToNat rest).map (fun n => (n : Int))
  | cs => (digitsToNat cs).map (fun n => (n : Int))

/-- One data line of the Faces section: the optional decoded face plus
whether a warning is recorded for the line. -/
def parseFaceLine (parts : List String) : Option (Int × Int × Int) × Bool :=
  if 4 ≤ parts.length ∧ parts.headD "" = "3" then
    match pyIntOfString (parts.getD 1 ""), pyIntOfString (parts.getD 2 ""),
        pyIntOfString (parts.getD 3 "") with
    | some e1, some e2, some e3 => (some (e1, e2, e3), false)
    | _, _, _ => (none, true)
  else
    (none, false)

/-- `parse_faces_full` over the tokenised data lines of the Faces section:
the collected faces and the number of warnings recorded. -/
def parseFacesFull (sectionLines : List (List String)) :
    List (Int × Int × Int) × Nat :=
  sectionLines.foldl
    (fun acc parts =>
      let r := parseFaceLine parts
      (acc.1 ++ r.1.toList, acc.2 + (if r.2 then 1 else 0)))
    ([], 0)

theorem parseFaceLine_short (parts : List String) (h : parts.length < 4) :
    parseFaceLine parts = (none, false) := by
  rw [parseFaceLine, if_neg]
  intro hc
  omega

theorem parseFacesFull_foldl (l : List (List String)) :
    ∀ (fs : List (Int × Int × Int)) (w : Nat),
      l.foldl (fun acc parts =>
          let r := parseFaceLine parts
          (acc.1 ++ r.1.toList, acc.2 + (if r.2 then 1 else 0))) (fs, w) =
        (fs ++ (parseFacesFull l).1, w + (parseFacesFull l).2) := by
  induction l with
  | nil => intro fs w; simp [parseFacesFull]
  | cons p rest ih =>
      intro fs w
      have hr : parseFacesFull (p :: rest) =
          ((parseFaceLine p).1.toList ++ (parseFacesFull rest).1,
            (if (parseFaceLine p).2 then 1 else 0) + (parseFacesFull rest).2) := by
        rw [parseFacesFull]
        simp only [List.foldl_cons]
        rw [ih]
        simp
      rw [hr]
      simp only [List.foldl_cons]
      rw [ih]
      simp [List.append_assoc, Nat.add_assoc]

theorem parseFacesFull_append (l1 l2 : List (List String)) :
    parseFacesFull (l1 ++ l2) =
      ((parseFacesFull l1).1 ++ (parseFacesFull l2).1,
        (parseFacesFull l1).2 + (parseFacesFull l2).2) := by
  rw [parseFacesFull, List.foldl_append]
  have h1 := parseFacesFull_foldl l1 [] 0
  rw [parseFacesFull] at h1
  rw [h1]
  simpa using parseFacesFull_foldl l2 (parseFacesFull l1).1 (parseFacesFull l1).2

end DFISE

/-- C5 counterexample: a Faces section whose second line carries only 2 edge
references (`3 0 1`) parses to a single face and records ZERO warnings,
while the claim asserts exactly one warning is recorded for that line. -/
theorem C5_counterexample :
    DFISE.parseFacesFull [["3", "0", "1", "2"], ["3", "0", "1"]] =
      ([(0, 1, 2)], 0) ∧
    ¬ (DFISE.parseFacesFull [["3", "0", "1", "2"], ["3", "0", "1"]]).2 = 1 ∧
    (DFISE.parseFacesFull [["3", "0", "1", "2"], ["3", "0", "1"]]).1.length < 2 := by
  refine ⟨by decide, by decide, by decide⟩

/-- C5 amended: a face line with only 2 edge references (fewer than 4
tokens) does not raise, records NO warning, and contributes no face: the
section parses exactly as if the line were absent, so the returned list is
shorter than the declared face count. -/
theorem C5_short_line_skipped_silently (pre post : List (List String))
    (parts : List String) (h : parts.length < 4) :
    DFISE.parseFacesFull (pre ++ parts :: post) =
      ((DFISE.parseFacesFull pre).1 ++ (DFISE.parseFacesFull post).1,
        (DFISE.parseFacesFull pre).2 + (DFISE.parseFacesFull post).2) := by
  rw [show pre ++ parts :: post = pre ++ ([parts] ++ post) from by simp,
    DFISE.parseFacesFull_append, DFISE.parseFacesFull_append]
  have hsingle : DFISE.parseFacesFull [parts] = ([], 0) := by
    rw [DFISE.parseFacesFull]
    simp [DFISE.parseFaceLine_short parts h]
  rw [hsingle]
  simp

/-- Witness for C5 amended at the counterexample's section. -/
theorem C5_short_line_skipped_silently_witness :
    DFISE.parseFacesFull [["3", "0", "1", "2"], ["3", "0", "1"]] =
      ((DFISE.parseFacesFull [["3", "0", "1", "2"]]).1 ++
          (DFISE.parseFacesFull ([] : List (List String))).1,
        (DFISE.parseFacesFull [["3", "0", "1", "2"]]).2 +
          (DFISE.parseFacesFull ([] : List (List String))).2) :=
  C5_short_line_skipped_silently [["3", "0", "1", "2"]] [] ["3", "0", "1"]
    (by decide)

namespace DFISE

/-! ### Region records and the region-coverage check

`parse_regions` (lines 447-494) stores one `RegionInfo` per completed region:
name, material, the element count from the `Elements (n)` header, and
`fraction = element_count / nb_elements` (a float, carried as a rational).

`validate_consistency` check 1 (lines 1088-1090):

    total_region_elements = sum(r.element_count for r in self.regions.values())
    results['regions_sum_correct'] = total_region_elements == self.info.nb_elements
-/

structure RegionInfo where
  name : String
  material : String
  element_count : Int
  fraction : ℚ
deriving DecidableEq

def regionsSumCorrect (regions : List RegionInfo) (nbElements : Int) : Bool :=
  (regions.map (fun r => r.element_count)).sum == nbElements

/-- Modelled from the spec: "the union of all regions' element-index lists,
deduplicated, must equal exactly the full element index range with no
omissions or duplicates".  `regionElems` is `parse_region_elements`' mapping
of region name to 0-based element indices. -/
def specRegionUnionProperty (regionElems : List (String × List Nat)) (n : Nat) : Prop :=
  ((regionElems.map Prod.snd).flatten.toFinset = Finset.range n) ∧
    ∀ p ∈ regionElems, ∀ q ∈ regionElems, p.1 = q.1 ∨ p.2.Disjoint q.2

end DFISE

/-- C3 counterexample: one region declaring 2 elements whose element-index
list is `[0, 0]` (a duplicate, and element 1 missing) over a mesh declaring
2 elements: the deduplicated union `{0}` violates the spec's union property,
yet the validator reports `regions_sum_correct == true` because it compares
only the sum of declared per-region counts with the declared total. -/
theorem C3_counterexample :
    DFISE.regionsSumCorrect [⟨"A", "Silicon", 2, 1⟩] 2 = true ∧
    ¬ DFISE.specRegionUnionProperty [("A", [0, 0])] 2 := by
  constructor
  · decide
  · intro hsp
    have := hsp.1
    have h0 : (1 : Nat) ∈ (([("A", [0, 0])].map Prod.snd).flatten :
        List Nat).toFinset ↔ (1 : Nat) ∈ Finset.range 2 := by rw [this]
    simp at h0

/-- C3 amended: `regions_sum_correct` is true exactly when the sum of the
per-region declared element counts equals the declared total element count;
the element-index lists are never inspected, so a fixture violating the
deduplicated-union coverage property can still report
`regions_sum_correct == true`. -/
theorem C3_sum_check_only :
    (∀ (regions : List DFISE.RegionInfo) (nbElements : Int),
        DFISE.regionsSumCorrect regions nbElements = true ↔
          (regions.map (fun r => r.element_count)).sum = nbElements) ∧
    (∃ (regions : List DFISE.RegionInfo) (regionElems : List (String × List Nat))
        (n : Nat),
        DFISE.regionsSumCorrect regions (n : Int) = true ∧
        ¬ DFISE.specRegionUnionProperty regionElems n) := by
  constructor
  · intro regions nbElements
    rw [DFISE.regionsSumCorrect]
    exact beq_iff_eq
  · refine ⟨[⟨"A", "Silicon", 2, 1⟩], [("A", [0, 0])], 2, by decide, ?_⟩
    intro hsp
    have := hsp.1
    have h0 : (1 : Nat) ∈ (([("A", [0, 0])].map Prod.snd).flatten :
        List Nat).toFinset ↔ (1 : Nat) ∈ Finset.range 2 := by rw [this]
    simp at h0

namespace DFISE

/-! ### Info block and mesh statistics (`compute_statistics`, lines 978-996)

`InfoBlock` mirrors the Python dataclass; counts are Python ints.  The
statistics ratios are Python float divisions, carried as rationals; a zero
divisor raises `ZeroDivisionError` (even `0/0` raises), modelled as `none`.
The divisions run in source order (`2*E/V`, `F/V`, `4*C/V`, `F/E`, `C/F`),
so the guards are `V = 0`, then `E = 0`, then `F = 0`. -/

structure InfoBlock where
  version : String
  type : String
  dimension : Int
  nb_vertices : Int
  nb_edges : Int
  nb_faces : Int
  nb_elements : Int
  nb_regions : Int
  regions : List String
  materials : List String
deriving DecidableEq

structure MeshStatistics where
  euler_characteristic : Int
  edges_per_vertex : ℚ
  faces_per_vertex : ℚ
  elements_per_vertex : ℚ
  faces_per_edge : ℚ
  elements_per_face : ℚ
  boundary_edges : Int
  interior_faces : Nat
  interface_faces : Nat
  exterior_faces : Nat
deriving DecidableEq

/-- `self.locations_chars.get(c, 0)`. -/
def locationsGet (locationsChars : List (Char × Nat)) (c : Char) : Nat :=
  match locationsChars.find? (fun p => p.1 == c) with
  | some p => p.2
  | none => 0

def computeStatistics (info : InfoBlock) (locationsChars : List (Char × Nat)) :
    Option MeshStatistics :=
  let V := info.nb_vertices
  let E := info.nb_edges
  let F := info.nb_faces
  let C := info.nb_elements
  let chi := V - E + F - C
  if V = 0 then none
  else if E = 0 then none
  else if F = 0 then none
  else
    some {
      euler_characteristic := chi
      edges_per_vertex := (2 * E : ℚ) / (V : ℚ)
      faces_per_vertex := (F : ℚ) / (V : ℚ)
      elements_per_vertex := (4 * C : ℚ) / (V : ℚ)
      faces_per_edge := (F : ℚ) / (E : ℚ)
      elements_per_face := (C : ℚ) / (F : ℚ)
      boundary_edges := 3 * F - 2 * E
      interior_faces := locationsGet locationsChars 'i'
      interface_faces := locationsGet locationsChars 'f'
      exterior_faces := locationsGet locationsChars 'e'
    }

end DFISE

/-- C9: when the declared counts make every division well-defined,
`compute_statistics` returns a value whose `euler_characteristic` is exactly
`V - E + F - C`; in particular `V=5, E=9, F=7, C=2` reports 1. -/
theorem C9_euler_characteristic (info : DFISE.InfoBlock)
    (locationsChars : List (Char × Nat))
    (hV : info.nb_vertices ≠ 0) (hE : info.nb_edges ≠ 0)
    (hF : info.nb_faces ≠ 0) :
    ∃ s, DFISE.computeStatistics info locationsChars = some s ∧
      s.euler_characteristic =
        info.nb_vertices - info.nb_edges + info.nb_faces - info.nb_elements := by
  rw [DFISE.computeStatistics]
  simp only [if_neg hV, if_neg hE, if_neg hF]
  exact ⟨_, rfl, rfl⟩

/-- Witness for C9 at declared counts `V=5, E=9, F=7, C=2`: the reported
Euler characteristic is 1. -/
theorem C9_euler_characteristic_witness :
    ∃ s, DFISE.computeStatistics
        ⟨"1.0", "grid", 3, 5, 9, 7, 2, 1, [], []⟩ [] = some s ∧
      s.euler_characteristic = 1 := by
  obtain ⟨s, hs, hchi⟩ := C9_euler_characteristic
    ⟨"1.0", "grid", 3, 5, 9, 7, 2, 1, [], []⟩ []
    (by decide) (by decide) (by decide)
  exact ⟨s, hs, by rw [hchi]; decide⟩

/-- C10: if the parsed `InfoBlock` carries `nb_vertices = 0`, `nb_edges = 0`
or `nb_faces = 0` — the values non-strict defaulting of missing Info fields
produces — then `compute_statistics` raises `ZeroDivisionError` (modelled
`none`) instead of returning a `MeshStatistics` value. -/
theorem C10_zero_counts_raise (info : DFISE.InfoBlock)
    (locationsChars : List (Char × Nat))
    (h : info.nb_vertices = 0 ∨ info.nb_edges = 0 ∨ info.nb_faces = 0) :
    DFISE.computeStatistics info locationsChars = none := by
  rw [DFISE.computeStatistics]
  rcases h with h | h | h
  · rw [if_pos h]
  · by_cases hV : info.nb_vertices = 0
    · rw [if_pos hV]
    · rw [if_neg hV, if_pos h]
  · by_cases hV : info.nb_vertices = 0
    · rw [if_pos hV]
    · by_cases hE : info.nb_edges = 0
      · rw [if_neg hV, if_pos hE]
      · rw [if_neg hV, if_neg hE, if_pos h]

/-- Witness for C10 at the all-defaults InfoBlock (every count 0). -/
theorem C10_zero_counts_raise_witness :
    DFISE.computeStatistics ⟨"1.0", "grid", 3, 0, 0, 0, 0, 0, [], []⟩ [] = none :=
  C10_zero_counts_raise ⟨"1.0", "grid", 3, 0, 0, 0, 0, 0, [], []⟩ []
    (Or.inl rfl)

namespace DFISE

/-! ### Info-block field validation (`parse_info_block`, lines 294-335)

The line loop that builds `info_dict` is elided: the function is modelled
from the assignment dictionary onward.  A value is a parsed int, a string
kept verbatim, or a parsed region/material list (floats do not arise for the
fields the claims touch).

    missing_fields = [f for f in required_fields if f not in info_dict]
    if missing_fields:
        if self.strict_mode:
            raise MissingRequiredSectionError(...)
        else:
            self._add_warning("Missing Info fields (using defaults): ...")
            for field in missing_fields:
                if field in defaults:
                    info_dict[field] = defaults[field]
    if 'nb_vertices' in info_dict and info_dict['nb_vertices'] < 0:
        self._add_error("Negative vertex count")
    if 'dimension' in info_dict and info_dict['dimension'] not in [2, 3]:
        self._add_warning("Unusual dimension: ...")
    try:
        self.info = InfoBlock(**info_dict)
    except TypeError as e:
        ...
        raise CorruptedFileError(...)

Note `_add_warning` and `_add_error` (lines 162-175) append to a list and
continue regardless of `strict_mode`; a comparison of a non-int
`nb_vertices` with 0 raises an uncaught `TypeError`; `InfoBlock(**d)` raises
`TypeError` when the keys are not exactly the 10 dataclass fields.  Raised
exceptions become `Except.error`; the ok value is the final dictionary with
the accumulated warnings and errors. -/

inductive InfoValue
  | intVal (n : Int)
  | strVal (s : String)
  | listVal (l : List String)
deriving DecidableEq

def requiredInfoFields : List String :=
  ["version", "type", "dimension", "nb_vertices", "nb_edges", "nb_faces",
   "nb_elements", "nb_regions"]

def infoFieldNames : List String := requiredInfoFields ++ ["regions", "materials"]

def infoDefaults : List (String × InfoValue) :=
  [("version", .strVal "1.0"), ("type", .strVal "grid"),
   ("dimension", .intVal 3), ("nb_vertices", .intVal 0),
   ("nb_edges", .intVal 0), ("nb_faces", .intVal 0),
   ("nb_elements", .intVal 0), ("nb_regions", .intVal 0),
   ("regions", .listVal []), ("materials", .listVal [])]

def lookupKey (d : List (String × InfoValue)) (k : String) : Option InfoValue :=
  (d.find? (fun p => p.1 == k)).map Prod.snd

/-- `info_dict['nb_vertices'] < 0`: the resulting error list, or a raised
`TypeError` for a non-int value. -/
def nbVerticesCheck (d : List (String × InfoValue)) : Except String (List String) :=
  match lookupKey d "nb_vertices" with
  | some (.intVal n) => .ok (if n < 0 then ["Negative vertex count"] else [])
  | some _ => .error "TypeError"
  | none => .ok []

/-- `info_dict['dimension'] not in [2, 3]` (a non-int value is not in the
list, so it warns). -/
def dimensionCheck (d : List (String × InfoValue)) : List String :=
  match lookupKey d "dimension" with
  | some (.intVal n) => if n = 2 ∨ n = 3 then [] else ["Unusual dimension"]
  | some _ => ["Unusual dimension"]
  | none => []

/-- `InfoBlock(**info_dict)` succeeds iff the keys are exactly the 10
dataclass fields. -/
def infoBlockConstructOk (d : List (String × InfoValue)) : Bool :=
  infoFieldNames.all (fun f => (lookupKey d f).isSome) &&
    d.all (fun p => infoFieldNames.contains p.1)

/-- `[field for field in required_fields if field not in info_dict]`. -/
def missingInfoFields (infoDict : List (String × InfoValue)) : List String :=
  requiredInfoFields.filter (fun f => (lookupKey infoDict f).isNone)

def parseInfoBlockFromDict (strictMode : Bool)
    (infoDict : List (String × InfoValue)) :
    Except String (List (String × InfoValue) × List String × List String) :=
  if missingInfoFields infoDict ≠ [] ∧ strictMode = true then
    .error "MissingRequiredSectionError"
  else
    let warnings0 : List String :=
      if missingInfoFields infoDict ≠ [] then
        ["Missing Info fields (using defaults)"]
      else []
    let d :=
      if missingInfoFields infoDict ≠ [] then
        infoDict ++ infoDefaults.filter
          (fun p => (missingInfoFields infoDict).contains p.1)
      else infoDict
    match nbVerticesCheck d with
    | .error e => .error e
    | .ok errors0 =>
        let warnings1 := warnings0 ++ dimensionCheck d
        if infoBlockConstructOk d then
          .ok (d, warnings1, errors0)
        else
          .error "CorruptedFileError"

/-- A complete Info dictionary with an unusual dimension value. -/
def infoDictDim5 : List (String × InfoValue) :=
  [("version", .strVal "1.0"), ("type", .strVal "grid"),
   ("dimension", .intVal 5), ("nb_vertices", .intVal 4),
   ("nb_edges", .intVal 6), ("nb_faces", .intVal 4),
   ("nb_elements", .intVal 1), ("nb_regions", .intVal 1),
   ("regions", .listVal ["A"]), ("materials", .listVal ["Silicon"])]

end DFISE

/-- C7 counterexample: in strict mode, a complete Info block whose
`dimension = 5` — a condition `_add_warning` records as "Unusual dimension"
in non-strict mode — parses successfully with the warning recorded instead
of failing hard, because `_add_warning` never consults `strict_mode`. -/
theorem C7_counterexample :
    DFISE.parseInfoBlockFromDict true DFISE.infoDictDim5 =
      .ok (DFISE.infoDictDim5, ["Unusual dimension"], []) ∧
    ¬ (DFISE.parseInfoBlockFromDict true DFISE.infoDictDim5 matches .error _) := by
  constructor
  · rfl
  · decide

/-- C7: strict mode does make missing required Info fields a hard failure
(with no defaulting), but warning conditions do NOT fail hard: a complete
Info block with an out-of-range `dimension` — which non-strict mode records
as a warning — still parses successfully in strict mode with the same
warning recorded, because `_add_warning` never consults `strict_mode`. -/
theorem C7_strict_mode_partial_promotion :
    (∀ d : List (String × DFISE.InfoValue),
        (∃ f ∈ DFISE.requiredInfoFields, DFISE.lookupKey d f = none) →
        DFISE.parseInfoBlockFromDict true d = .error "MissingRequiredSectionError") ∧
    (∀ (d : List (String × DFISE.InfoValue)) (v n : Int),
        DFISE.lookupKey d "nb_vertices" = some (.intVal v) → ¬ v < 0 →
        DFISE.lookupKey d "dimension" = some (.intVal n) → ¬ (n = 2 ∨ n = 3) →
        (∀ f ∈ DFISE.requiredInfoFields, (DFISE.lookupKey d f).isSome = true) →
        DFISE.infoBlockConstructOk d = true →
        DFISE.parseInfoBlockFromDict true d = .ok (d, ["Unusual dimension"], [])) := by
  constructor
  · intro d h
    obtain ⟨f, hf, hnone⟩ := h
    have hmem : f ∈ DFISE.missingInfoFields d := by
      rw [DFISE.missingInfoFields, List.mem_filter]
      exact ⟨hf, by rw [hnone]; rfl⟩
    have hne : DFISE.missingInfoFields d ≠ [] := by
      intro hnil
      rw [hnil] at hmem
      exact List.not_mem_nil f hmem
    rw [DFISE.parseInfoBlockFromDict, if_pos ⟨hne, rfl⟩]
  · intro d v n hv hvneg hdim hndim hall hok
    have hmiss : DFISE.missingInfoFields d = [] := by
      rw [DFISE.missingInfoFields, List.filter_eq_nil_iff]
      intro f hf
      have := hall f hf
      simp only [Option.isNone_eq_false_iff, Option.isSome_iff_ne_none] at *
      simpa using this
    have hnb : DFISE.nbVerticesCheck d = .ok [] := by
      rw [DFISE.nbVerticesCheck, hv]
      simp [hvneg]
    have hdm : DFISE.dimensionCheck d = ["Unusual dimension"] := by
      rw [DFISE.dimensionCheck, hdim]
      simp [hndim]
    rw [DFISE.parseInfoBlockFromDict, if_neg (by simp [hmiss])]
    simp [hmiss, hnb, hdm, hok]

/-- Witness for C7: a dictionary missing `nb_vertices` fails hard in strict
mode; the complete dimension-5 dictionary parses with a warning in strict
mode. -/
theorem C7_strict_mode_partial_promotion_witness :
    DFISE.parseInfoBlockFromDict true
        [("version", DFISE.InfoValue.strVal "1.0")] =
      .error "MissingRequiredSectionError" ∧
    DFISE.parseInfoBlockFromDict true DFISE.infoDictDim5 =
      .ok (DFISE.infoDictDim5, ["Unusual dimension"], []) := by
  constructor
  · exact C7_strict_mode_partial_promotion.1 [("version", DFISE.InfoValue.strVal "1.0")]
      ⟨"type", by decide, by decide⟩
  · exact C7_strict_mode_partial_promotion.2 DFISE.infoDictDim5 4 5
      (by decide) (by decide) (by decide) (by decide)
      (by intro f hf; fin_cases hf <;> decide) (by decide)

namespace DFISE

/-! ### NAS export id assignment (`export_to_nas`, lines 1403-1502)

Only the record/id structure is modelled; card text formatting is elided.
Step 4 builds the mappings:

    element_to_region[elem_idx] = region_name   (last write wins)
    material_to_mid: mids 1.. in first-encountered region order
    region_to_pid: pids 1.. over sorted(region_elements.keys())

Step 6 writes, in order: GRID cards (node_id = i + 1), MAT1 cards in mid
order, PSOLID cards in pid order (skipping a region absent from
self.regions), CTETRA cards with a single eid_counter starting at 1
(skipping an element whose region does not resolve), then CTRIA3 cards
continuing the same eid_counter.  Coordinates are irrelevant to ids and
carried as rationals. -/

inductive NasCard
  | grid (nid : Nat)
  | mat1 (mid : Nat)
  | psolid (pid mid : Nat)
  | ctetra (eid pid : Nat) (ns : List Int)
  | ctria3 (eid pid : Nat) (ns : List Int)
deriving DecidableEq

def cardKind : NasCard → Nat
  | .grid _ => 0
  | .mat1 _ => 1
  | .psolid _ _ => 2
  | .ctetra _ _ _ => 3
  | .ctria3 _ _ _ => 4

def cardId : NasCard → Nat
  | .grid n => n
  | .mat1 m => m
  | .psolid p _ => p
  | .ctetra e _ _ => e
  | .ctria3 e _ _ => e

/-- The ids of one record kind, in output order. -/
def idsOfKind (k : Nat) (cards : List NasCard) : List Nat :=
  (cards.filter (fun c => cardKind c == k)).map cardId

/-- `element_to_region` built from `region_elements`, last write wins. -/
def elementToRegion (regionElems : List (String × List Nat)) (e : Nat) :
    Option String :=
  regionElems.foldl (fun acc p => if p.2.contains e then some p.1 else acc) none

/-- Materials in first-encountered region order; `material_to_mid` maps the
i-th to mid i+1. -/
def materialOrder (regions : List RegionInfo) : List String :=
  regions.foldl
    (fun acc r => if acc.contains r.material then acc else acc ++ [r.material]) []

def materialToMid (regions : List RegionInfo) (m : String) : Option Nat :=
  ((materialOrder regions).indexOf? m).map (· + 1)

/-- `sorted(region_elements.keys())`; pid of the i-th name is i+1. -/
def pidOrder (regionElems : List (String × List Nat)) : List String :=
  List.insertionSort (· ≤ ·) (regionElems.map Prod.fst)

def regionToPid (regionElems : List (String × List Nat)) (name : String) :
    Option Nat :=
  ((pidOrder regionElems).indexOf? name).map (· + 1)

/-- GRID cards: `node_id = i + 1` over the vertices. -/
def gridCardsGo (nid : Nat) : List (ℚ × ℚ × ℚ) → List NasCard
  | [] => []
  | _ :: rest => NasCard.grid nid :: gridCardsGo (nid + 1) rest

def gridCards (vertices : List (ℚ × ℚ × ℚ)) : List NasCard :=
  gridCardsGo 1 vertices

/-- MAT1 cards in mid order (mids are 1.. in `materialOrder` order, and the
cards are written sorted by mid). -/
def mat1CardsGo (mid : Nat) : List String → List NasCard
  | [] => []
  | _ :: rest => NasCard.mat1 mid :: mat1CardsGo (mid + 1) rest

def mat1Cards (regions : List RegionInfo) : List NasCard :=
  mat1CardsGo 1 (materialOrder regions)

/-- PSOLID cards in pid order; a pid whose region is missing from
`self.regions` is skipped (no card), but the pid was still assigned.
`material_to_mid[region_info.material]` cannot miss for a stored region, so
its lookup is modelled with default 0. -/
def psolidCardsGo (regions : List RegionInfo) (pid : Nat) :
    List String → List NasCard
  | [] => []
  | name :: rest =>
      match regions.find? (fun r => r.name == name) with
      | some r =>
          NasCard.psolid pid ((materialToMid regions r.material).getD 0) ::
            psolidCardsGo regions (pid + 1) rest
      | none => psolidCardsGo regions (pid + 1) rest

def psolidCards (regions : List RegionInfo)
    (regionElems : List (String × List Nat)) : List NasCard :=
  psolidCardsGo regions 1 (pidOrder regionElems)

/-- CTETRA cards: `eid_counter` increments only for emitted elements; an
element whose region does not resolve (or is the falsy empty name) is
skipped.  Returns the cards and the final counter value. -/
def ctetraCardsGo (regionElems : List (String × List Nat)) :
    Nat → Nat → List (List Int) → List NasCard × Nat
  | eid, _, [] => ([], eid)
  | eid, idx, verts :: rest =>
      match elementToRegion regionElems idx with
      | some name =>
          if name ≠ "" ∧ (regionToPid regionElems name).isSome = true then
            let r := ctetraCardsGo regionElems (eid + 1) (idx + 1) rest
            (NasCard.ctetra eid ((regionToPid regionElems name).getD 0)
                (verts.map (· + 1)) :: r.1, r.2)
          else ctetraCardsGo regionElems eid (idx + 1) rest
      | none => ctetraCardsGo regionElems eid (idx + 1) rest

/-- Exterior-face indices, emitted only when the locations list matches the
face count. -/
def boundaryFaces (locations : List Char) (facesAsVertices : List (List Int)) :
    List Nat :=
  if locations.length = facesAsVertices.length then
    (locations.enum.filter (fun p => p.2 == 'e')).map Prod.fst
  else []

/-- CTRIA3 cards continue the CTETRA `eid_counter`; pid is the fixed
placeholder 1. -/
def ctria3CardsGo (facesAsVertices : List (List Int)) :
    Nat → List Nat → List NasCard × Nat
  | eid, [] => ([], eid)
  | eid, fidx :: rest =>
      let r := ctria3CardsGo facesAsVertices (eid + 1) rest
      (NasCard.ctria3 eid 1 ((facesAsVertices.getD fidx []).map (· + 1)) :: r.1,
        r.2)

def exportCards (vertices : List (ℚ × ℚ × ℚ)) (regions : List RegionInfo)
    (regionElems : List (String × List Nat)) (elems : List (List Int))
    (facesAsVertices : List (List Int)) (locations : List Char)
    (includeSurfaces : Bool) : List NasCard :=
  let grids := gridCards vertices
  let mats := mat1Cards regions
  let psolids := psolidCards regions regionElems
  let ct := ctetraCardsGo regionElems 1 0 elems
  let bfaces := if includeSurfaces then boundaryFaces locations facesAsVertices
    else []
  let ct3 := (ctria3CardsGo facesAsVertices ct.2 bfaces).1
  grids ++ mats ++ psolids ++ ct.1 ++ ct3

end DFISE

namespace DFISE

/-- A minimal export fixture: one tetrahedron in one region, one exterior
face, surfaces included. -/
def nasFixture : List NasCard :=
  exportCards [(0, 0, 0), (1, 0, 0), (0, 1, 0), (0, 0, 1)]
    [⟨"R", "Silicon", 1, 1⟩] [("R", [0])] [[0, 1, 2, 3]] [[0, 1, 2]] ['e'] true

theorem idsOfKind_append (k : Nat) (a b : List NasCard) :
    idsOfKind k (a ++ b) = idsOfKind k a ++ idsOfKind k b := by
  simp [idsOfKind, List.filter_append]

theorem idsOfKind_all_eq (k : Nat) (cards : List NasCard)
    (h : ∀ c ∈ cards, cardKind c = k) :
    idsOfKind k cards = cards.map cardId := by
  rw [idsOfKind, List.filter_eq_self.mpr]
  intro c hc
  simp [h c hc]

theorem idsOfKind_all_ne (k j : Nat) (cards : List NasCard)
    (h : ∀ c ∈ cards, cardKind c = j) (hne : j ≠ k) :
    idsOfKind k cards = [] := by
  rw [idsOfKind]
  have hf : cards.filter (fun c => cardKind c == k) = [] := by
    rw [List.filter_eq_nil_iff]
    intro c hc
    simp [h c hc, beq_iff_eq, hne]
  rw [hf]
  rfl

theorem gridCardsGo_spec (l : List (ℚ × ℚ × ℚ)) : ∀ (nid : Nat),
    (∀ c ∈ gridCardsGo nid l, cardKind c = 0) ∧
    (gridCardsGo nid l).map cardId = List.range' nid l.length := by
  induction l with
  | nil =>
      intro nid
      exact ⟨fun c hc => by simp [gridCardsGo] at hc, by simp [gridCardsGo]⟩
  | cons x rest ih =>
      intro nid
      constructor
      · intro c hc
        rw [gridCardsGo] at hc
        rcases List.mem_cons.mp hc with h | h
        · rw [h]; rfl
        · exact (ih (nid + 1)).1 c h
      · rw [gridCardsGo, List.map_cons, (ih (nid + 1)).2, List.length_cons,
          List.range'_succ]
        rfl

theorem mat1CardsGo_spec (l : List String) : ∀ (mid : Nat),
    (∀ c ∈ mat1CardsGo mid l, cardKind c = 1) ∧
    (mat1CardsGo mid l).map cardId = List.range' mid l.length := by
  induction l with
  | nil =>
      intro mid
      exact ⟨fun c hc => by simp [mat1CardsGo] at hc, by simp [mat1CardsGo]⟩
  | cons x rest ih =>
      intro mid
      constructor
      · intro c hc
        rw [mat1CardsGo] at hc
        rcases List.mem_cons.mp hc with h | h
        · rw [h]; rfl
        · exact (ih (mid + 1)).1 c h
      · rw [mat1CardsGo, List.map_cons, (ih (mid + 1)).2, List.length_cons,
          List.range'_succ]
        rfl

theorem psolidCardsGo_spec (regions : List RegionInfo) (names : List String)
    (h : ∀ name ∈ names,
      (regions.find? (fun r => r.name == name)).isSome = true) :
    ∀ (pid : Nat),
      (∀ c ∈ psolidCardsGo regions pid names, cardKind c = 2) ∧
      (psolidCardsGo regions pid names).map cardId =
        List.range' pid names.length := by
  induction names with
  | nil =>
      intro pid
      exact ⟨fun c hc => by simp [psolidCardsGo] at hc, by simp [psolidCardsGo]⟩
  | cons name rest ih =>
      intro pid
      obtain ⟨r, hr⟩ := Option.isSome_iff_exists.mp
        (h name (List.mem_cons_self name rest))
      have hrest := ih (fun n hn => h n (List.mem_cons_of_mem _ hn))
      constructor
      · intro c hc
        rw [psolidCardsGo, hr] at hc
        rcases List.mem_cons.mp hc with hh | hh
        · rw [hh]; rfl
        · exact (hrest (pid + 1)).1 c hh
      · rw [psolidCardsGo, hr, List.map_cons, (hrest (pid + 1)).2,
          List.length_cons, List.range'_succ]
        rfl

theorem ctetraCardsGo_spec (re : List (String × List Nat)) :
    ∀ (l : List (List Int)) (eid idx : Nat),
      (∀ c ∈ (ctetraCardsGo re eid idx l).1, cardKind c = 3) ∧
      (ctetraCardsGo re eid idx l).2 =
        eid + (ctetraCardsGo re eid idx l).1.length ∧
      (ctetraCardsGo re eid idx l).1.map cardId =
        List.range' eid (ctetraCardsGo re eid idx l).1.length := by
  intro l
  induction l with
  | nil =>
      intro eid idx
      exact ⟨fun c hc => by simp [ctetraCardsGo] at hc,
        by simp [ctetraCardsGo], by simp [ctetraCardsGo]⟩
  | cons verts rest ih =>
      intro eid idx
      rcases hm : elementToRegion re idx with _ | name
      · have hrw : ctetraCardsGo re eid idx (verts :: rest) =
            ctetraCardsGo re eid (idx + 1) rest := by
          rw [ctetraCardsGo, hm]
        rw [hrw]
        exact ih eid (idx + 1)
      · by_cases hcond : name ≠ "" ∧ (regionToPid re name).isSome = true
        · have hrw : ctetraCardsGo re eid idx (verts :: rest) =
              (NasCard.ctetra eid ((regionToPid re name).getD 0)
                  (verts.map (· + 1)) ::
                (ctetraCardsGo re (eid + 1) (idx + 1) rest).1,
                (ctetraCardsGo re (eid + 1) (idx + 1) rest).2) := by
            rw [ctetraCardsGo, hm]
            exact if_pos hcond
          obtain ⟨ih1, ih2, ih3⟩ := ih (eid + 1) (idx + 1)
          rw [hrw]
          refine ⟨?_, ?_, ?_⟩
          · intro c hc
            rcases List.mem_cons.mp hc with hh | hh
            · rw [hh]; rfl
            · exact ih1 c hh
          · simp only [List.length_cons, ih2]
            omega
          · rw [List.map_cons, ih3, List.length_cons, List.range'_succ]
            rfl
        · have hrw : ctetraCardsGo re eid idx (verts :: rest) =
              ctetraCardsGo re eid (idx + 1) rest := by
            rw [ctetraCardsGo, hm]
            exact if_neg hcond
          rw [hrw]
          exact ih eid (idx + 1)

theorem ctria3CardsGo_spec (faces : List (List Int)) :
    ∀ (l : List Nat) (eid : Nat),
      (∀ c ∈ (ctria3CardsGo faces eid l).1, cardKind c = 4) ∧
      (ctria3CardsGo faces eid l).1.map cardId =
        List.range' eid (ctria3CardsGo faces eid l).1.length := by
  intro l
  induction l with
  | nil =>
      intro eid
      exact ⟨fun c hc => by simp [ctria3CardsGo] at hc, by simp [ctria3CardsGo]⟩
  | cons fidx rest ih =>
      intro eid
      constructor
      · intro c hc
        rw [ctria3CardsGo] at hc
        rcases List.mem_cons.mp hc with hh | hh
        · rw [hh]; rfl
        · exact (ih (eid + 1)).1 c hh
      · rw [ctria3CardsGo, List.map_cons, (ih (eid + 1)).2, List.length_cons,
          List.range'_succ]
        rfl

end DFISE

namespace DFISE

theorem psolidCardsGo_kinds (regions : List RegionInfo) (names : List String) :
    ∀ (pid : Nat), ∀ c ∈ psolidCardsGo regions pid names, cardKind c = 2 := by
  induction names with
  | nil => intro pid c hc; simp [psolidCardsGo] at hc
  | cons name rest ih =>
      intro pid c hc
      rw [psolidCardsGo] at hc
      rcases hfind : regions.find? (fun r => r.name == name) with _ | r
      · rw [hfind] at hc
        exact ih (pid + 1) c hc
      · rw [hfind] at hc
        rcases List.mem_cons.mp hc with hh | hh
        · rw [hh]; rfl
        · exact ih (pid + 1) c hh

theorem exportCards_eq (v : List (ℚ × ℚ × ℚ)) (r : List RegionInfo)
    (re : List (String × List Nat)) (el : List (List Int))
    (f : List (List Int)) (loc : List Char) (inc : Bool) :
    exportCards v r re el f loc inc =
      gridCardsGo 1 v ++ mat1CardsGo 1 (materialOrder r) ++
        psolidCardsGo r 1 (pidOrder re) ++
        (ctetraCardsGo re 1 0 el).1 ++
        (ctria3CardsGo f (ctetraCardsGo re 1 0 el).2
          (if inc then boundaryFaces loc f else [])).1 := rfl

end DFISE

/-- C6 counterexample: for a fixture with one exported tetrahedron and one
exterior face, the CTRIA3 card id is 2, not 1 — `eid_counter` is shared with
the CTETRA cards, so CTRIA3 ids are not independently sequential from 1 as
the claim states. -/
theorem C6_counterexample :
    DFISE.idsOfKind 3 DFISE.nasFixture = [1] ∧
    DFISE.idsOfKind 4 DFISE.nasFixture = [2] ∧
    ¬ DFISE.idsOfKind 4 DFISE.nasFixture = [1] := by
  refine ⟨by decide, by decide, by decide⟩

/-- C6 amended: GRID, MAT1 and CTETRA ids each start at 1 and increment by 1
within their kind (PSOLID likewise whenever every region of
`region_elements` is present in `self.regions`); CTRIA3 ids instead continue
the CTETRA sequence — they run from K+1 where K is the number of exported
CTETRA cards — because both kinds share the same `eid_counter`. -/
theorem C6_sequential_ids :
    (∀ (v : List (ℚ × ℚ × ℚ)) (r : List DFISE.RegionInfo)
        (re : List (String × List Nat)) (el f : List (List Int))
        (loc : List Char) (inc : Bool),
        DFISE.idsOfKind 0 (DFISE.exportCards v r re el f loc inc) =
          List.range' 1 v.length) ∧
    (∀ (v : List (ℚ × ℚ × ℚ)) (r : List DFISE.RegionInfo)
        (re : List (String × List Nat)) (el f : List (List Int))
        (loc : List Char) (inc : Bool),
        DFISE.idsOfKind 1 (DFISE.exportCards v r re el f loc inc) =
          List.range' 1 (DFISE.materialOrder r).length) ∧
    (∀ (v : List (ℚ × ℚ × ℚ)) (r : List DFISE.RegionInfo)
        (re : List (String × List Nat)) (el f : List (List Int))
        (loc : List Char) (inc : Bool),
        (∀ name ∈ DFISE.pidOrder re,
          (r.find? (fun ri => ri.name == name)).isSome = true) →
        DFISE.idsOfKind 2 (DFISE.exportCards v r re el f loc inc) =
          List.range' 1 (DFISE.pidOrder re).length) ∧
    (∀ (v : List (ℚ × ℚ × ℚ)) (r : List DFISE.RegionInfo)
        (re : List (String × List Nat)) (el f : List (List Int))
        (loc : List Char) (inc : Bool),
        ∃ K B, DFISE.idsOfKind 3 (DFISE.exportCards v r re el f loc inc) =
            List.range' 1 K ∧
          DFISE.idsOfKind 4 (DFISE.exportCards v r re el f loc inc) =
            List.range' (K + 1) B) := by
  have hgrid := DFISE.gridCardsGo_spec
  have hmat := DFISE.mat1CardsGo_spec
  refine ⟨?_, ?_, ?_, ?_⟩
  · intro v r re el f loc inc
    rw [DFISE.exportCards_eq, DFISE.idsOfKind_append, DFISE.idsOfKind_append,
      DFISE.idsOfKind_append, DFISE.idsOfKind_append,
      DFISE.idsOfKind_all_eq 0 _ ((hgrid v 1).1), (hgrid v 1).2,
      DFISE.idsOfKind_all_ne 0 1 _ ((hmat (DFISE.materialOrder r) 1).1) (by decide),
      DFISE.idsOfKind_all_ne 0 2 _ (DFISE.psolidCardsGo_kinds r (DFISE.pidOrder re) 1)
        (by decide),
      DFISE.idsOfKind_all_ne 0 3 _ ((DFISE.ctetraCardsGo_spec re el 1 0).1) (by decide),
      DFISE.idsOfKind_all_ne 0 4 _
        ((DFISE.ctria3CardsGo_spec f _ (DFISE.ctetraCardsGo re 1 0 el).2).1)
        (by decide)]
    simp
  · intro v r re el f loc inc
    rw [DFISE.exportCards_eq, DFISE.idsOfKind_append, DFISE.idsOfKind_append,
      DFISE.idsOfKind_append, DFISE.idsOfKind_append,
      DFISE.idsOfKind_all_ne 1 0 _ ((hgrid v 1).1) (by decide),
      DFISE.idsOfKind_all_eq 1 _ ((hmat (DFISE.materialOrder r) 1).1),
      (hmat (DFISE.materialOrder r) 1).2,
      DFISE.idsOfKind_all_ne 1 2 _ (DFISE.psolidCardsGo_kinds r (DFISE.pidOrder re) 1)
        (by decide),
      DFISE.idsOfKind_all_ne 1 3 _ ((DFISE.ctetraCardsGo_spec re el 1 0).1) (by decide),
      DFISE.idsOfKind_all_ne 1 4 _
        ((DFISE.ctria3CardsGo_spec f _ (DFISE.ctetraCardsGo re 1 0 el).2).1)
        (by decide)]
    simp
  · intro v r re el f loc inc hfound
    have hps := DFISE.psolidCardsGo_spec r (DFISE.pidOrder re) hfound 1
    rw [DFISE.exportCards_eq, DFISE.idsOfKind_append, DFISE.idsOfKind_append,
      DFISE.idsOfKind_append, DFISE.idsOfKind_append,
      DFISE.idsOfKind_all_ne 2 0 _ ((hgrid v 1).1) (by decide),
      DFISE.idsOfKind_all_ne 2 1 _ ((hmat (DFISE.materialOrder r) 1).1) (by decide),
      DFISE.idsOfKind_all_eq 2 _ hps.1, hps.2,
      DFISE.idsOfKind_all_ne 2 3 _ ((DFISE.ctetraCardsGo_spec re el 1 0).1) (by decide),
      DFISE.idsOfKind_all_ne 2 4 _
        ((DFISE.ctria3CardsGo_spec f _ (DFISE.ctetraCardsGo re 1 0 el).2).1)
        (by decide)]
    simp
  · intro v r re el f loc inc
    obtain ⟨hct1, hct2, hct3⟩ := DFISE.ctetraCardsGo_spec re el 1 0
    have hc3 := DFISE.ctria3CardsGo_spec f
      (if inc then DFISE.boundaryFaces loc f else [])
      (DFISE.ctetraCardsGo re 1 0 el).2
    refine ⟨(DFISE.ctetraCardsGo re 1 0 el).1.length,
      (DFISE.ctria3CardsGo f (DFISE.ctetraCardsGo re 1 0 el).2
        (if inc then DFISE.boundaryFaces loc f else [])).1.length, ?_, ?_⟩
    · rw [DFISE.exportCards_eq, DFISE.idsOfKind_append, DFISE.idsOfKind_append,
        DFISE.idsOfKind_append, DFISE.idsOfKind_append,
        DFISE.idsOfKind_all_ne 3 0 _ ((hgrid v 1).1) (by decide),
        DFISE.idsOfKind_all_ne 3 1 _ ((hmat (DFISE.materialOrder r) 1).1) (by decide),
        DFISE.idsOfKind_all_ne 3 2 _
          (DFISE.psolidCardsGo_kinds r (DFISE.pidOrder re) 1) (by decide),
        DFISE.idsOfKind_all_eq 3 _ hct1, hct3,
        DFISE.idsOfKind_all_ne 3 4 _ hc3.1 (by decide)]
      simp
    · rw [DFISE.exportCards_eq, DFISE.idsOfKind_append, DFISE.idsOfKind_append,
        DFISE.idsOfKind_append, DFISE.idsOfKind_append,
        DFISE.idsOfKind_all_ne 4 0 _ ((hgrid v 1).1) (by decide),
        DFISE.idsOfKind_all_ne 4 1 _ ((hmat (DFISE.materialOrder r) 1).1) (by decide),
        DFISE.idsOfKind_all_ne 4 2 _
          (DFISE.psolidCardsGo_kinds r (DFISE.pidOrder re) 1) (by decide),
        DFISE.idsOfKind_all_ne 4 3 _ hct1 (by decide),
        DFISE.idsOfKind_all_eq 4 _ hc3.1, hc3.2, hct2]
      simp [Nat.add_comm]

/-- Witness for C6 amended, at the counterexample fixture (one region, all
resolvable): PSOLID ids are `[1]`. -/
theorem C6_sequential_ids_witness :
    DFISE.idsOfKind 2 (DFISE.exportCards
        [(0, 0, 0), (1, 0, 0), (0, 1, 0), (0, 0, 1)]
        [⟨"R", "Silicon", 1, 1⟩] [("R", [0])] [[0, 1, 2, 3]] [[0, 1, 2]]
        ['e'] true) =
      List.range' 1 (DFISE.pidOrder [("R", [0])]).length :=
  C6_sequential_ids.2.2.1 [(0, 0, 0), (1, 0, 0), (0, 1, 0), (0, 0, 1)]
    [⟨"R", "Silicon", 1, 1⟩] [("R", [0])] [[0, 1, 2, 3]] [[0, 1, 2]] ['e'] true
    (by intro name hn; fin_cases hn; decide)
